import Mathlib

set_option maxRecDepth 65536

/-!
Shallow embedding of the escape-detection-and-removal engine of the
md-cleaner repository (method MarkdownCleaner.clean_escaped_markdown,
which is textually identical in src/markdown_cleaner.py and
src/clean_markdown.py).

Text is modelled as List Char.  Each Python regular expression of the
source is embedded as an explicit left-to-right scanner implementing
re.sub semantics: leftmost non-overlapping matches, scanning resuming
after each match, MULTILINE anchors for the rewrite rules, plain anchors
for the classifier indicators (re.search is called without flags there),
and the greedy/backtracking behaviour of each concrete pattern.
Python's character classes for whitespace and digits are modelled by
their ASCII fragments, which is exact on ASCII input.
-/

/-- ASCII fragment of Python's whitespace class: space, tab, newline,
carriage return, vertical tab (11) and form feed (12). -/
def isPySpace (c : Char) : Bool :=
  c == ' ' || c == '\t' || c == '\n' || c == '\r' || c == Char.ofNat 11 || c == Char.ofNat 12

/-- MULTILINE start-of-line anchor: start of text or right after a newline. -/
def atLineStart : Option Char → Bool
  | none => true
  | some c => c == '\n'

/-- List markers of the source rule: '-', '*' or '+'. -/
def isListMarker (c : Char) : Bool :=
  c == '-' || c == '*' || c == '+'

/-- Characters of the horizontal-rule class of the source: '-' or '*'. -/
def isStarDash (c : Char) : Bool :=
  c == '-' || c == '*'

/-! Classifier indicators (lines 52-68 of the source): each indicator is
searched with re.search and no flags.  A search succeeds iff the pattern
matches at some start position, i.e. at some suffix of the text. -/

/-- Search for a pattern at every start position (every suffix). -/
def anySuffix (p : List Char → Bool) : List Char → Bool
  | [] => p []
  | c :: rest => p (c :: rest) || anySuffix p rest

/-- Shared head of all nine indicator patterns: a literal backslash
followed by the pattern-specific tail. -/
def mkMatcher (tail : List Char → Bool) : List Char → Bool
  | a :: t => a == '\\' && tail t
  | [] => false

/-- Tail scanner for the emphasis-pair indicator: the gap of the `.*`
part of the pattern may not contain a newline, and the closing piece is
a backslash followed by an asterisk. -/
def closeStar : List Char → Bool
  | a :: b :: rest => (a == '\\' && b == '*') || (!(a == '\n') && closeStar (b :: rest))
  | _ => false

/-- Tail scanner for the link indicator: gap without newline, closing
piece a backslash followed by a closing square bracket. -/
def closeBracket : List Char → Bool
  | a :: b :: rest => (a == '\\' && b == ']') || (!(a == '\n') && closeBracket (b :: rest))
  | _ => false

/-- One or more digits followed by a period, as in the numbered-list
indicator. -/
def dotRun : List Char → Bool
  | c :: rest => c == '.' || (c.isDigit && dotRun rest)
  | [] => false

/-- Digits-then-period scanner used right after the backslash. -/
def digitsDot : List Char → Bool
  | c :: rest => c.isDigit && dotRun rest
  | [] => false

/-- Indicator 1 of the source: escaped header mark. -/
def ind1 : List Char → Bool :=
  anySuffix (mkMatcher fun t => match t with | '#' :: _ => true | _ => false)

/-- Indicator 2: escaped list marker, a backslash, a dash, whitespace. -/
def ind2 : List Char → Bool :=
  anySuffix (mkMatcher fun t => match t with | '-' :: w :: _ => isPySpace w | _ => false)

/-- Indicator 3: escaped emphasis pair on one line. -/
def ind3 : List Char → Bool :=
  anySuffix (mkMatcher fun t => match t with | '*' :: rest => closeStar rest | _ => false)

/-- Indicator 4: escaped numbered list, a backslash, digits, a period. -/
def ind4 : List Char → Bool :=
  anySuffix (mkMatcher digitsDot)

/-- Indicator 5: escaped blockquote mark. -/
def ind5 : List Char → Bool :=
  anySuffix (mkMatcher fun t => match t with | '>' :: _ => true | _ => false)

/-- Indicator 6: escaped link brackets on one line. -/
def ind6 : List Char → Bool :=
  anySuffix (mkMatcher fun t => match t with | '[' :: rest => closeBracket rest | _ => false)

/-- Indicator 7: escaped plus sign. -/
def ind7 : List Char → Bool :=
  anySuffix (mkMatcher fun t => match t with | '+' :: _ => true | _ => false)

/-- Indicator 8: escaped underscore. -/
def ind8 : List Char → Bool :=
  anySuffix (mkMatcher fun t => match t with | '_' :: _ => true | _ => false)

/-- Indicator 9: trailing standalone backslash.  Searched without
MULTILINE, so the dollar anchor only holds at the end of the text or
just before a newline that ends the text; with the greedy whitespace
run this is equivalent to a backslash followed only by whitespace. -/
def ind9 : List Char → Bool :=
  anySuffix (mkMatcher fun t => t.all isPySpace)

/-- The fixed indicator list of the source (lines 52-62). -/
def escaped_indicators : List (List Char → Bool) :=
  [ind1, ind2, ind3, ind4, ind5, ind6, ind7, ind8, ind9]

/-- Number of indicators that fire (lines 64-68 of the source). -/
def escape_count (content : List Char) : Nat :=
  escaped_indicators.foldl (fun n f => if f content then n + 1 else n) 0

/-! Rewrite rules (lines 82-120 of the source).  A rule is embedded as a
match attempt at the current scan position: given the original character
just before the position (for lookbehind and line-start anchors) and the
remaining text, it either fails or returns the replacement to emit, the
new previous-character value, and k such that k + 1 characters of the
text are consumed. -/

/-- Match attempt of one rewrite rule at one text position. -/
abbrev TryFn : Type := Option Char → List Char → Option (List Char × Option Char × Nat)

/-- Greedy digits-then-period tail used by the numbered-list rules:
returns the digit group and its length. -/
def numTail (rest : List Char) : Option (List Char × Nat) :=
  let ds := rest.takeWhile Char.isDigit
  if ds.isEmpty then none
  else
    match rest.drop ds.length with
    | '.' :: _ => some (ds, ds.length)
    | _ => none

/-- Rule 1 of the source pattern table: headers, a backslash before one
to six hash marks (greedy), replaced by the hash marks. -/
def tryHash : TryFn := fun _ cs =>
  match cs with
  | '\\' :: rest =>
    let n := min (rest.takeWhile (· == '#')).length 6
    if n == 0 then none else some (List.replicate n '#', some '#', n)
  | _ => none

/-- Whitespace alternative of the group of rule 2. -/
def tryListWs (cs : List Char) : Option (List Char × Option Char × Nat) :=
  match cs with
  | s :: '\\' :: m :: w :: _ =>
    if isPySpace s && isListMarker m && isPySpace w then some ([s, m, ' '], some w, 3) else none
  | _ => none

/-- Rule 2: list markers after line start or whitespace, the trailing
whitespace character being replaced by a single space. -/
def tryList : TryFn := fun prev cs =>
  if atLineStart prev then
    match cs with
    | '\\' :: m :: w :: _ =>
      if isListMarker m && isPySpace w then some ([m, ' '], some w, 2) else tryListWs cs
    | _ => tryListWs cs
  else tryListWs cs

/-- Whitespace alternative of the group of rule 3. -/
def tryNumWs (cs : List Char) : Option (List Char × Option Char × Nat) :=
  match cs with
  | s :: '\\' :: rest =>
    if isPySpace s then
      match numTail rest with
      | some (ds, d) => some (s :: (ds ++ ['.']), some '.', d + 2)
      | none => none
    else none
  | _ => none

/-- Rule 3: numbered lists anchored at line start or after whitespace. -/
def tryNum1 : TryFn := fun prev cs =>
  if atLineStart prev then
    match cs with
    | '\\' :: rest =>
      match numTail rest with
      | some (ds, d) => some (ds ++ ['.'], some '.', d + 1)
      | none => tryNumWs cs
    | _ => tryNumWs cs
  else tryNumWs cs

/-- Rule 4: remaining escaped digit groups followed by a period. -/
def tryNum2 : TryFn := fun _ cs =>
  match cs with
  | '\\' :: rest =>
    match numTail rest with
    | some (ds, d) => some (ds ++ ['.'], some '.', d + 1)
    | none => none
  | _ => none

/-- Rule 5: escaped plus signs. -/
def tryPlus : TryFn := fun _ cs =>
  match cs with
  | '\\' :: '+' :: _ => some (['+'], some '+', 1)
  | _ => none

/-- Rule 6: escaped underscores. -/
def tryUnderscore : TryFn := fun _ cs =>
  match cs with
  | '\\' :: '_' :: _ => some (['_'], some '_', 1)
  | _ => none

/-- Rule 7: emphasis markers, guarded by a negative lookbehind on a
preceding backslash. -/
def tryEmph : TryFn := fun prev cs =>
  if prev == some '\\' then none
  else
    match cs with
    | '\\' :: m :: _ => if m == '*' || m == '_' then some ([m], some m, 1) else none
    | _ => none

/-- Rule 8: inline code marker (the backtick character, code 96),
guarded by the lookbehind. -/
def tryCode : TryFn := fun prev cs =>
  if prev == some '\\' then none
  else
    match cs with
    | '\\' :: m :: _ => if m == Char.ofNat 96 then some ([m], some m, 1) else none
    | _ => none

/-- Rule 9: square brackets, guarded by the lookbehind. -/
def tryBracket : TryFn := fun prev cs =>
  if prev == some '\\' then none
  else
    match cs with
    | '\\' :: m :: _ => if m == '[' || m == ']' then some ([m], some m, 1) else none
    | _ => none

/-- Rule 10: parentheses, guarded by the lookbehind. -/
def tryParen : TryFn := fun prev cs =>
  if prev == some '\\' then none
  else
    match cs with
    | '\\' :: m :: _ => if m == '(' || m == ')' then some ([m], some m, 1) else none
    | _ => none

/-- Rule 11: horizontal rules, a backslash before a greedy run of three
or more dashes or asterisks, guarded by the lookbehind. -/
def tryHr : TryFn := fun prev cs =>
  if prev == some '\\' then none
  else
    match cs with
    | '\\' :: rest =>
      let run := rest.takeWhile isStarDash
      if run.length ≥ 3 then some (run, some (run.getLastD '-'), run.length) else none
    | _ => none

/-- Whitespace alternative of the group of rule 12. -/
def tryQuoteWs (cs : List Char) : Option (List Char × Option Char × Nat) :=
  match cs with
  | s :: '\\' :: '>' :: w :: _ =>
    if isPySpace s && isPySpace w then some ([s, '>', ' '], some w, 3) else none
  | _ => none

/-- Rule 12: blockquote markers after line start or whitespace. -/
def tryQuote : TryFn := fun prev cs =>
  if atLineStart prev then
    match cs with
    | '\\' :: '>' :: w :: _ =>
      if isPySpace w then some (['>', ' '], some w, 2) else tryQuoteWs cs
    | _ => tryQuoteWs cs
  else tryQuoteWs cs

/-- Largest index of a newline in a character list, used for the
backtracking of the greedy whitespace run of rule 13. -/
def lastIdxNl : List Char → Option Nat
  | [] => none
  | c :: rest =>
    match lastIdxNl rest with
    | some j => some (j + 1)
    | none => if c == '\n' then some 0 else none

/-- Rule 13: trailing standalone backslashes, a backslash and a greedy
whitespace run backtracked to the last position where the MULTILINE
dollar anchor holds, the whole match removed. -/
def tryTrailing : TryFn := fun _ cs =>
  match cs with
  | '\\' :: rest =>
    let run := rest.takeWhile isPySpace
    if (rest.drop run.length).isEmpty then
      some ([], some (('\\' :: run).getLastD '\\'), run.length)
    else
      match lastIdxNl run with
      | some j => some ([], some (('\\' :: run.take j).getLastD '\\'), j)
      | none => none
  | _ => none

/-- Rule 14: residual escaped periods, guarded by the lookbehind. -/
def tryPeriod : TryFn := fun prev cs =>
  if prev == some '\\' then none
  else
    match cs with
    | '\\' :: m :: _ => if m == '.' then some ([m], some m, 1) else none
    | _ => none

/-- The ordered rule table of the source (lines 82-120). -/
def patterns : List TryFn :=
  [tryHash, tryList, tryNum1, tryNum2, tryPlus, tryUnderscore, tryEmph, tryCode,
   tryBracket, tryParen, tryHr, tryQuote, tryTrailing, tryPeriod]

/-- The re.sub scan: at each position try the rule; on a match emit the
replacement and resume after the consumed characters, otherwise copy one
character.  Every match consumes at least one character, so fuel equal
to the length of the text never runs out. -/
def scanFuel (r : TryFn) : Nat → Option Char → List Char → List Char
  | 0, _, cs => cs
  | _ + 1, _, [] => []
  | fuel + 1, prev, c :: rest =>
    match r prev (c :: rest) with
    | some (rep, newPrev, k) => rep ++ scanFuel r fuel newPrev (rest.drop k)
    | none => c :: scanFuel r fuel (some c) rest

/-- One full re.sub pass of a rule over a text. -/
def applyRule (r : TryFn) (t : List Char) : List Char :=
  scanFuel r t.length none t

/-- Loop body of lines 125-131 of the source: apply a rule and count it
when the length of the text changed. -/
def cleanStep (acc : List Char × Nat) (r : TryFn) : List Char × Nat :=
  let cleaned := applyRule r acc.1
  (cleaned, if cleaned.length ≠ acc.1.length then acc.2 + 1 else acc.2)

/-- The engine, lines 26-140 of src/markdown_cleaner.py: empty input
short-circuits, a zero indicator count short-circuits, otherwise the
rule table is folded over the text. -/
def clean_escaped_markdown (content : List Char) : List Char × Nat :=
  if content.isEmpty then (content, 0)
  else if escape_count content = 0 then (content, 0)
  else patterns.foldl cleanStep (content, 0)

/-- Sequential application of a rule list, one full pass each. -/
def applyAll : List TryFn → List Char → List Char
  | [], t => t
  | r :: rs, t => applyAll rs (applyRule r t)

/-- Number of rules of a rule list whose pass changed the length of the
text it was applied to. -/
def changedCount : List TryFn → List Char → Nat
  | [], _ => 0
  | r :: rs, t => (if (applyRule r t).length ≠ t.length then 1 else 0) + changedCount rs (applyRule r t)

/-- Instance state of the MarkdownCleaner class (lines 19-24). -/
structure MarkdownCleaner where
  dry_run : Bool := false
  verbose : Bool := false
  files_processed : Nat := 0
  files_cleaned : Nat := 0
  total_changes : Nat := 0

/-- Diagnostic prints of the verbose mode, modelled as log events. -/
inductive LogEvent where
  | noPatternsDetected
  | detectedPatterns (count : Nat)
  | cleanedTypes (count : Nat)
  | noneFoundToClean
deriving DecidableEq

/-- The method MarkdownCleaner.clean_escaped_markdown with its verbose
prints modelled as a returned log; the instance state is only read for
the verbose flag, which gates the log entries. -/
def MarkdownCleaner.clean_escaped_markdown (self : MarkdownCleaner) (content : List Char) :
    (List Char × Nat) × List LogEvent :=
  if content.isEmpty then ((content, 0), [])
  else if escape_count content = 0 then
    ((content, 0), if self.verbose then [LogEvent.noPatternsDetected] else [])
  else
    let result := patterns.foldl cleanStep (content, 0)
    (result,
      (if self.verbose then [LogEvent.detectedPatterns (escape_count content)] else []) ++
      (if self.verbose then
        (if result.2 > 0 then [LogEvent.cleanedTypes result.2] else [LogEvent.noneFoundToClean])
      else []))

namespace CleanMarkdownCLI

/-- Indicator list of src/clean_markdown.py, lines 52-62; the file is a
textual copy of src/markdown_cleaner.py, so the embedded indicators are
the same nine scanners. -/
def escaped_indicators : List (List Char → Bool) :=
  [ind1, ind2, ind3, ind4, ind5, ind6, ind7, ind8, ind9]

/-- Indicator count of src/clean_markdown.py, lines 64-68. -/
def escape_count (content : List Char) : Nat :=
  escaped_indicators.foldl (fun n f => if f content then n + 1 else n) 0

/-- Rule table of src/clean_markdown.py, lines 82-120, a textual copy of
the table of src/markdown_cleaner.py. -/
def patterns : List TryFn :=
  [tryHash, tryList, tryNum1, tryNum2, tryPlus, tryUnderscore, tryEmph, tryCode,
   tryBracket, tryParen, tryHr, tryQuote, tryTrailing, tryPeriod]

/-- The engine of src/clean_markdown.py, lines 33-140. -/
def clean_escaped_markdown (content : List Char) : List Char × Nat :=
  if content.isEmpty then (content, 0)
  else if escape_count content = 0 then (content, 0)
  else patterns.foldl cleanStep (content, 0)

end CleanMarkdownCLI

/-! Helper lemmas. -/

/-- A suffix search succeeds exactly when the pattern matches at some
suffix. -/
theorem anySuffix_eq_true (p : List Char → Bool) (s : List Char) :
    anySuffix p s = true ↔ ∃ t, t <:+ s ∧ p t = true := by
  induction s with
  | nil =>
    simp only [anySuffix]
    constructor
    · intro h; exact ⟨[], List.suffix_refl _, h⟩
    · rintro ⟨t, ht, hp⟩
      rw [List.suffix_nil.mp ht] at hp; exact hp
  | cons c cs ih =>
    simp only [anySuffix, Bool.or_eq_true, ih]
    constructor
    · rintro (h | ⟨t, ht, hp⟩)
      · exact ⟨c :: cs, List.suffix_refl _, h⟩
      · exact ⟨t, ht.trans (List.suffix_cons c cs), hp⟩
    · rintro ⟨t, ht, hp⟩
      rcases List.suffix_cons_iff.mp ht with h | h
      · subst h; exact Or.inl hp
      · exact Or.inr ⟨t, h, hp⟩

/-- Every indicator pattern starts with a backslash. -/
theorem mkMatcher_mem {tail : List Char → Bool} {s : List Char}
    (h : mkMatcher tail s = true) : '\\' ∈ s := by
  cases s with
  | nil => simp [mkMatcher] at h
  | cons a t =>
    simp only [mkMatcher, Bool.and_eq_true, beq_iff_eq] at h
    rw [h.1]; exact List.mem_cons_self _ _

/-- On text without a backslash no indicator built from mkMatcher can
fire. -/
theorem anySuffix_mkMatcher_false (tail : List Char → Bool) (s : List Char)
    (h : '\\' ∉ s) : anySuffix (mkMatcher tail) s = false := by
  cases hb : anySuffix (mkMatcher tail) s with
  | false => rfl
  | true =>
    obtain ⟨t, ht, hp⟩ := (anySuffix_eq_true _ s).mp hb
    exact absurd (ht.subset (mkMatcher_mem hp)) h

/-- On text without a backslash all nine indicators are false. -/
theorem inds_false_of_no_backslash (s : List Char) (h : '\\' ∉ s) :
    ∀ f ∈ escaped_indicators, f s = false := by
  intro f hf
  simp only [escaped_indicators, List.mem_cons, List.not_mem_nil, or_false] at hf
  rcases hf with rfl | rfl | rfl | rfl | rfl | rfl | rfl | rfl | rfl <;>
    exact anySuffix_mkMatcher_false _ s h

/-- With all indicators false the engine returns the text unchanged with
count zero. -/
theorem clean_of_no_signals (t : List Char) (h : ∀ f ∈ escaped_indicators, f t = false) :
    clean_escaped_markdown t = (t, 0) := by
  have h1 := h ind1 (by simp [escaped_indicators])
  have h2 := h ind2 (by simp [escaped_indicators])
  have h3 := h ind3 (by simp [escaped_indicators])
  have h4 := h ind4 (by simp [escaped_indicators])
  have h5 := h ind5 (by simp [escaped_indicators])
  have h6 := h ind6 (by simp [escaped_indicators])
  have h7 := h ind7 (by simp [escaped_indicators])
  have h8 := h ind8 (by simp [escaped_indicators])
  have h9 := h ind9 (by simp [escaped_indicators])
  have hec : escape_count t = 0 := by
    simp [escape_count, escaped_indicators, h1, h2, h3, h4, h5, h6, h7, h8, h9]
  cases he : t.isEmpty with
  | true => simp [clean_escaped_markdown, he]
  | false => simp [clean_escaped_markdown, he, hec]

/-- A scan with a rule that matches at no suffix of the text copies the
text unchanged. -/
theorem scanFuel_nomatch (r : TryFn) :
    ∀ (fuel : Nat) (prev : Option Char) (cs : List Char),
      (∀ p s, s <:+ cs → r p s = none) → scanFuel r fuel prev cs = cs := by
  intro fuel
  induction fuel with
  | zero => intro prev cs _; rfl
  | succ n ih =>
    intro prev cs h
    cases cs with
    | nil => rfl
    | cons c rest =>
      have h0 : r prev (c :: rest) = none := h prev (c :: rest) (List.suffix_refl _)
      simp only [scanFuel, h0]
      exact congrArg (c :: ·) (ih (some c) rest (fun p s hs => h p s (hs.trans (List.suffix_cons c rest))))

/-- The counting fold of the engine loop equals the sequential rule
application paired with the count of length-changing rules. -/
theorem foldl_cleanStep (rs : List TryFn) :
    ∀ (t : List Char) (n : Nat),
      rs.foldl cleanStep (t, n) = (applyAll rs t, n + changedCount rs t) := by
  induction rs with
  | nil => intro t n; simp [applyAll, changedCount]
  | cons r rs ih =>
    intro t n
    simp only [List.foldl_cons]
    rw [show cleanStep (t, n) r = (applyRule r t, if (applyRule r t).length ≠ t.length then n + 1 else n) from rfl]
    rw [ih]
    simp only [applyAll, changedCount]
    by_cases hc : (applyRule r t).length = t.length
    · simp [hc]
    · simp only [hc, if_neg, ne_eq, not_false_iff, if_true, Prod.mk.injEq]
      exact ⟨trivial, by omega⟩

/-! Claim theorems. -/

/-- C1 counterexample: the engine is not idempotent.  On the input
backslash-backslash-hash the first pass strips one backslash (the header
rule has no lookbehind guard), yielding backslash-hash, and a second
pass strips the remaining one, so clean(clean(text)) differs from
clean(text). -/
theorem clean_not_idempotent_cex :
    clean_escaped_markdown (clean_escaped_markdown ['\\', '\\', '#']).1 ≠
      clean_escaped_markdown ['\\', '\\', '#'] := by decide

/-- C1 amended: idempotence holds whenever the first pass produced a
text without any backslash; then the second pass detects zero signals
and returns the text unchanged with count zero. -/
theorem clean_idempotent_amended (t : List Char)
    (h : '\\' ∉ (clean_escaped_markdown t).1) :
    clean_escaped_markdown (clean_escaped_markdown t).1 = ((clean_escaped_markdown t).1, 0) :=
  clean_of_no_signals _ (inds_false_of_no_backslash _ h)

/-- C1 witness: a representative corrupted header input whose cleaned
output has no backslash, on which the amended idempotence applies. -/
theorem clean_idempotent_amended_witness :
    '\\' ∉ (clean_escaped_markdown "\\# T".toList).1 ∧
      clean_escaped_markdown (clean_escaped_markdown "\\# T".toList).1 =
        ((clean_escaped_markdown "\\# T".toList).1, 0) :=
  ⟨by decide, clean_idempotent_amended "\\# T".toList (by decide)⟩

/-- C2: when none of the nine classifier signal patterns matches the
input (the empty string included), the engine returns the input
unchanged together with a change count of zero. -/
theorem noop_on_clean_input (content : List Char)
    (h : ∀ f ∈ escaped_indicators, f content = false) :
    clean_escaped_markdown content = (content, 0) :=
  clean_of_no_signals content h

/-- C2 witness: a correctly formatted header line fires no signal and is
returned unchanged with count zero. -/
theorem noop_on_clean_input_witness :
    (∀ f ∈ escaped_indicators, f "# Title".toList = false) ∧
      clean_escaped_markdown "# Title".toList = ("# Title".toList, 0) :=
  ⟨by decide, noop_on_clean_input "# Title".toList (by decide)⟩

/-- C3 counterexample: a backslash preceded by another backslash is
removed by the header rule, which carries no lookbehind guard: cleaning
the five characters a, backslash, backslash, hash, b yields the four
characters a, backslash, hash, b, so the double backslash before the
hash is not preserved. -/
theorem double_backslash_cex :
    clean_escaped_markdown "a\\\\#b".toList = ("a\\#b".toList, 1) ∧
      "a\\#b".toList ≠ "a\\\\#b".toList := by decide

/-- C3 amended: only the six rules that carry the explicit
not-preceded-by-backslash guard (emphasis, inline code, brackets,
parentheses, horizontal rules, residual periods) never fire right after
a backslash, so they preserve a doubled backslash; the header rule has
no such guard and strips one backslash of a double backslash before a
hash, while the guarded emphasis rule keeps a double backslash before an
asterisk intact. -/
theorem double_backslash_amended :
    (∀ cs, tryEmph (some '\\') cs = none) ∧
    (∀ cs, tryCode (some '\\') cs = none) ∧
    (∀ cs, tryBracket (some '\\') cs = none) ∧
    (∀ cs, tryParen (some '\\') cs = none) ∧
    (∀ cs, tryHr (some '\\') cs = none) ∧
    (∀ cs, tryPeriod (some '\\') cs = none) ∧
    clean_escaped_markdown "\\# \\\\*".toList = ("# \\\\*".toList, 1) ∧
    clean_escaped_markdown "a\\\\#b".toList = ("a\\#b".toList, 1) :=
  ⟨fun _ => rfl, fun _ => rfl, fun _ => rfl, fun _ => rfl, fun _ => rfl, fun _ => rfl,
    by decide, by decide⟩

/-- C4: the engine is total, it returns a pair on every input, and a
rule whose pattern matches at no position of the text leaves the text
unchanged in its pass. -/
theorem engine_totality (content : List Char) :
    (∃ cleaned changes, clean_escaped_markdown content = (cleaned, changes)) ∧
    (∀ (r : TryFn) (prev : Option Char),
      (∀ p s, s <:+ content → r p s = none) → scanFuel r content.length prev content = content) :=
  ⟨⟨_, _, rfl⟩, fun r prev h => scanFuel_nomatch r content.length prev content h⟩

/-- C4 witness: a rule that matches nowhere is the identity pass on a
concrete text. -/
theorem engine_totality_witness :
    scanFuel (fun _ _ => none) "ab".toList.length none "ab".toList = "ab".toList :=
  (engine_totality "ab".toList).2 (fun _ _ => none) none (fun _ _ _ => rfl)

/-- C5: for a non-empty input that passes the classifier gate the engine
returns the sequential application of the fixed rule table together with
the number of rules whose pass changed the length of the text. -/
theorem change_count_semantics (content : List Char)
    (hne : content ≠ []) (hgate : escape_count content ≠ 0) :
    clean_escaped_markdown content =
      (applyAll patterns content, changedCount patterns content) := by
  have he : content.isEmpty = false := by
    cases content with
    | nil => exact absurd rfl hne
    | cons c cs => rfl
  unfold clean_escaped_markdown
  rw [he]
  simp only [Bool.false_eq_true, if_false]
  rw [if_neg hgate]
  simpa using foldl_cleanStep patterns content 0

/-- C5 witness: the change-count decomposition evaluated on a concrete
escaped header input. -/
theorem change_count_semantics_witness :
    ("\\# T".toList ≠ [] ∧ escape_count "\\# T".toList ≠ 0) ∧
      clean_escaped_markdown "\\# T".toList =
        (applyAll patterns "\\# T".toList, changedCount patterns "\\# T".toList) :=
  ⟨⟨by decide, by decide⟩, change_count_semantics "\\# T".toList (by decide) (by decide)⟩

/-- C6 counterexample: the header rule does not normalize the text to a
single space after the hash marks; an escaped header with two spaces
keeps both spaces after cleaning. -/
theorem header_rule_cex :
    clean_escaped_markdown "\\#  Title".toList = ("#  Title".toList, 1) ∧
      "#  Title".toList ≠ "# Title".toList := by decide

/-- C6 amended: the header rule unescapes a backslash before one to six
consecutive hash marks anywhere in the text and leaves the following
text, its spacing included, unchanged; in particular an escaped header
line with a single space cleans to the header with that single space. -/
theorem header_rule_amended :
    clean_escaped_markdown "\\# Title".toList = ("# Title".toList, 1) ∧
    clean_escaped_markdown "\\###x".toList = ("###x".toList, 1) ∧
    clean_escaped_markdown "\\#Title".toList = ("#Title".toList, 1) ∧
    clean_escaped_markdown "x\\#y".toList = ("x#y".toList, 1) := by decide

/-- C7 counterexample: no rule removes a backslash before a comma; on an
input that passes the gate through the header signal, the escaped comma
survives cleaning. -/
theorem residual_punct_cex :
    clean_escaped_markdown "\\# a\\,b".toList = ("# a\\,b".toList, 1) ∧
      '\\' ∈ ("# a\\,b".toList : List Char) := by decide

/-- C7 amended: the final residual rule unescapes periods only: it never
fires on a backslash followed by any character other than a period, it
removes a single backslash (not preceded by a backslash) before a
period, and backslashes before other punctuation survive the whole
engine. -/
theorem residual_punct_amended :
    (∀ (prev : Option Char) (c : Char) (cs : List Char),
      c ≠ '.' → tryPeriod prev ('\\' :: c :: cs) = none) ∧
    (∀ (prev : Option Char) (cs : List Char),
      prev ≠ some '\\' → tryPeriod prev ('\\' :: '.' :: cs) = some (['.'], some '.', 1)) ∧
    clean_escaped_markdown "\\# a\\.b".toList = ("# a.b".toList, 2) := by
  refine ⟨?_, ?_, by decide⟩
  · intro prev c cs hc
    simp only [tryPeriod]
    split
    · rfl
    · simp [hc]
  · intro prev cs hp
    have hb : (prev == some '\\') = false := by
      simpa using hp
    simp [tryPeriod, hb]

/-- C7 witness: the residual rule does not fire on an escaped comma and
does fire on an escaped period. -/
theorem residual_punct_amended_witness :
    tryPeriod none ('\\' :: ',' :: ['x']) = none ∧
      tryPeriod none ('\\' :: '.' :: ['x']) = some (['.'], some '.', 1) :=
  ⟨residual_punct_amended.1 none ',' ['x'] (by decide),
    residual_punct_amended.2.1 none ['x'] (by decide)⟩

/-- C8 counterexample: a lone backslash at the end of a non-final line
does not fire the trailing-backslash classifier signal (the indicator is
searched without MULTILINE), and the whole engine leaves such an input
unchanged with count zero. -/
theorem trailing_backslash_cex :
    ind9 "a\\\nb".toList = false ∧
      clean_escaped_markdown "a\\\nb".toList = ("a\\\nb".toList, 0) ∧
      '\\' ∈ ("a\\\nb".toList : List Char) := by decide

/-- C8 amended: the classifier signal fires for a lone backslash at the
end of the whole text (any text ending in a backslash fires it), and
once any signal fires the rewrite rule strips lone trailing backslashes
at the end of every line, as on the input a, backslash, newline, b,
backslash, which cleans to a, newline, b with one changed rule. -/
theorem trailing_backslash_amended :
    (∀ cs : List Char, ind9 (cs ++ ['\\']) = true) ∧
      clean_escaped_markdown "a\\\nb\\".toList = ("a\nb".toList, 1) :=
  ⟨fun cs => (anySuffix_eq_true _ _).mpr ⟨['\\'], List.suffix_append cs ['\\'], by decide⟩,
    by decide⟩

/-- C9: the returned (text, count) pair of the method is a function of
the content alone: any two instance states (dry_run, verbose and the
counters are the whole state) give identical results, equal to the pure
engine function; the flags only gate the diagnostic log. -/
theorem engine_purity (s₁ s₂ : MarkdownCleaner) (content : List Char) :
    (s₁.clean_escaped_markdown content).1 = (s₂.clean_escaped_markdown content).1 ∧
      (s₁.clean_escaped_markdown content).1 = clean_escaped_markdown content := by
  by_cases he : content.isEmpty = true
  · simp [MarkdownCleaner.clean_escaped_markdown, clean_escaped_markdown, he]
  · by_cases hec : escape_count content = 0
    · simp [MarkdownCleaner.clean_escaped_markdown, clean_escaped_markdown, he, hec]
    · simp [MarkdownCleaner.clean_escaped_markdown, clean_escaped_markdown, he, hec]

/-- C10: the engine of src/clean_markdown.py and the engine of
src/markdown_cleaner.py compute the same function. -/
theorem engines_equal (content : List Char) :
    CleanMarkdownCLI.clean_escaped_markdown content = clean_escaped_markdown content := rfl
